import Mathlib

/-!
Shallow embedding of the iron-io/macaroon Go package.

Bytes are modelled as `List Nat` (each element a byte value `< 256`);
machine words are `Nat` reduced modulo `2^32` where the Go code relies
on 32-bit wraparound.  The package files embedded here are
`macaroon.go`, the packet codec (`packet.go`) and the marshalling code
(`marshal.go`) of the fork, whose `Macaroon` stores the caveats as a
single packet.

The Go code calls `keyedHash`/`keyedHasher` (HMAC-SHA-256, from the
package's crypto helper, whose body is not part of the sources here but
is fixed by the spec: "keyed_hash(key, message) -> 32 bytes:
HMAC-SHA-256").  SHA-256 and HMAC-SHA-256 are therefore implemented
concretely below, following FIPS 180-4 / RFC 2104.
-/

namespace IronMacaroon

/-- 2^32, the modulus for 32-bit word arithmetic. -/
def w32 : Nat := 4294967296

/-- All-ones 32-bit mask, used to model bitwise complement. -/
def mask32 : Nat := 4294967295

/-- 32-bit right rotation by `n` (for `0 < n < 32`). -/
def rotr32 (n x : Nat) : Nat := ((x >>> n) ||| (x <<< (32 - n))) % w32

/-- SHA-256 `Ch` function. -/
def shaCh (x y z : Nat) : Nat := (x &&& y) ^^^ ((x ^^^ mask32) &&& z)

/-- SHA-256 `Maj` function. -/
def shaMaj (x y z : Nat) : Nat := (x &&& y) ^^^ (x &&& z) ^^^ (y &&& z)

/-- SHA-256 Σ₀. -/
def bigSigma0 (x : Nat) : Nat := rotr32 2 x ^^^ rotr32 13 x ^^^ rotr32 22 x

/-- SHA-256 Σ₁. -/
def bigSigma1 (x : Nat) : Nat := rotr32 6 x ^^^ rotr32 11 x ^^^ rotr32 25 x

/-- SHA-256 σ₀. -/
def smallSigma0 (x : Nat) : Nat := rotr32 7 x ^^^ rotr32 18 x ^^^ (x >>> 3)

/-- SHA-256 σ₁. -/
def smallSigma1 (x : Nat) : Nat := rotr32 17 x ^^^ rotr32 19 x ^^^ (x >>> 10)

/-- The 64 SHA-256 round constants. -/
def shaK : List Nat :=
  [1116352408, 1899447441, 3049323471, 3921009573, 961987163, 1508970993,
   2453635748, 2870763221, 3624381080, 310598401, 607225278, 1426881987,
   1925078388, 2162078206, 2614888103, 3248222580, 3835390401, 4022224774,
   264347078, 604807628, 770255983, 1249150122, 1555081692, 1996064986,
   2554220882, 2821834349, 2952996808, 3210313671, 3336571891, 3584528711,
   113926993, 338241895, 666307205, 773529912, 1294757372, 1396182291,
   1695183700, 1986661051, 2177026350, 2456956037, 2730485921, 2820302411,
   3259730800, 3345764771, 3516065817, 3600352804, 4094571909, 275423344,
   430227734, 506948616, 659060556, 883997877, 958139571, 1322822218,
   1537002063, 1747873779, 1955562222, 2024104815, 2227730452, 2361852424,
   2428436474, 2756734187, 3204031479, 3329325298]

/-- SHA-256 working state: eight 32-bit words. -/
structure Hash8 where
  a : Nat
  b : Nat
  c : Nat
  d : Nat
  e : Nat
  f : Nat
  g : Nat
  h : Nat
  deriving Repr, DecidableEq

/-- SHA-256 initial hash value. -/
def shaInit : Hash8 :=
  ⟨1779033703, 3144134277, 1013904242, 2773480762,
   1359893119, 2600822924, 528734635, 1541459225⟩

/-- Extend the 16-word message window by `n` further schedule words.
`window` holds the previous 16 words oldest-first; the new words are
accumulated (reversed) in `acc`. -/
def extendLoop : Nat → List Nat → List Nat → List Nat
  | 0, _, acc => acc.reverse
  | n + 1, window, acc =>
    match window with
    | w16 :: w15 :: rest =>
      let w7 := window.getD 9 0
      let w2 := window.getD 14 0
      let nw := (smallSigma1 w2 + w7 + smallSigma0 w15 + w16) % w32
      extendLoop n (w15 :: rest ++ [nw]) (nw :: acc)
    | _ => acc.reverse

/-- The full 64-word message schedule of one block (16 words in). -/
def schedule (block : List Nat) : List Nat := block ++ extendLoop 48 block []

/-- One SHA-256 round: fold step over `(Kᵢ, Wᵢ)` pairs. -/
def compressStep (st : Hash8) (kw : Nat × Nat) : Hash8 :=
  let t1 := (st.h + bigSigma1 st.e + shaCh st.e st.f st.g + kw.1 + kw.2) % w32
  let t2 := (bigSigma0 st.a + shaMaj st.a st.b st.c) % w32
  ⟨(t1 + t2) % w32, st.a, st.b, st.c, (st.d + t1) % w32, st.e, st.f, st.g⟩

/-- Componentwise 32-bit addition of two states. -/
def add8 (s t : Hash8) : Hash8 :=
  ⟨(s.a + t.a) % w32, (s.b + t.b) % w32, (s.c + t.c) % w32, (s.d + t.d) % w32,
   (s.e + t.e) % w32, (s.f + t.f) % w32, (s.g + t.g) % w32, (s.h + t.h) % w32⟩

/-- Compress one 16-word block into the state. -/
def compressBlock (st : Hash8) (block : List Nat) : Hash8 :=
  add8 st (((shaK.zip (schedule block))).foldl compressStep st)

/-- Consume the padded message, 16 words (one block) at a time. -/
def processWords : Hash8 → List Nat → Hash8
  | st, w0 :: w1 :: w2 :: w3 :: w4 :: w5 :: w6 :: w7 ::
        w8 :: w9 :: w10 :: w11 :: w12 :: w13 :: w14 :: w15 :: rest =>
    processWords (compressBlock st [w0, w1, w2, w3, w4, w5, w6, w7,
                                    w8, w9, w10, w11, w12, w13, w14, w15]) rest
  | st, _ => st

/-- Group bytes into big-endian 32-bit words (trailing partial group dropped;
the padded message length is always a multiple of 4). -/
def toWords : List Nat → List Nat
  | a :: b :: c :: d :: rest => (((a * 256 + b) * 256 + c) * 256 + d) :: toWords rest
  | _ => []

/-- Big-endian 8-byte encoding (used for the SHA-256 length field). -/
def beBytes8 (n : Nat) : List Nat :=
  [(n >>> 56) % 256, (n >>> 48) % 256, (n >>> 40) % 256, (n >>> 32) % 256,
   (n >>> 24) % 256, (n >>> 16) % 256, (n >>> 8) % 256, n % 256]

/-- Big-endian 4-byte encoding of a 32-bit word. -/
def be4 (n : Nat) : List Nat := [(n >>> 24) % 256, (n >>> 16) % 256, (n >>> 8) % 256, n % 256]

/-- SHA-256 padding: `0x80`, zeros to 56 mod 64, then the 64-bit bit length. -/
def padMessage (msg : List Nat) : List Nat :=
  msg ++ 128 :: (List.replicate ((119 - msg.length % 64) % 64) 0 ++ beBytes8 (8 * msg.length))

/-- SHA-256 of a byte string, as 32 bytes. -/
def sha256 (msg : List Nat) : List Nat :=
  let st := processWords shaInit (toWords (padMessage msg))
  be4 st.a ++ be4 st.b ++ be4 st.c ++ be4 st.d ++ be4 st.e ++ be4 st.f ++ be4 st.g ++ be4 st.h

/-- HMAC-SHA-256 (RFC 2104), block size 64.  This is the package's
`keyedHash(key, text)`; `keyedHasher(key)` followed by several `Write`
calls and `Sum` equals `hmacSHA256 key` of the concatenated chunks. -/
def hmacSHA256 (key msg : List Nat) : List Nat :=
  let k0 := if 64 < key.length then sha256 key else key
  let kp := k0 ++ List.replicate (64 - k0.length) 0
  sha256 ((kp.map fun b => b ^^^ 92) ++ sha256 ((kp.map fun b => b ^^^ 54) ++ msg))

/-!
## Packet codec (packet.go of the fork)

The binary layout per packet is
`[2-byte little-endian total length][1-byte field tag][payload]`,
total length counting the 3-byte header.  A `packet` is a span
reference `(start, totalLen)` into `Macaroon.data`; `totalLen = 0` is
the zero/absent packet.

Go slice expressions can panic on out-of-range indices; operations
that can panic return a `GoResult`.
-/

/-- Outcome of a Go computation: a value, a returned `error`, or a
runtime panic. -/
inductive GoResult (α : Type) where
  | ok : α → GoResult α
  | err : String → GoResult α
  | panic : String → GoResult α
  deriving Repr, DecidableEq

/-- A span reference into `Macaroon.data` (`packet` in packet.go). -/
structure Packet where
  start : Nat
  totalLen : Nat
  deriving Repr, DecidableEq

/-- `packet.len()`. -/
def Packet.len (p : Packet) : Nat := p.totalLen

/-- `headerLen`: 2 length bytes plus 1 tag byte. -/
def headerLen : Nat := 3

/-- `maxPacketLen = 0xffff`. -/
def maxPacketLen : Nat := 65535

/-- Field tag `fieldInvalid`. -/
def fieldInvalid : Nat := 0

/-- Field tag `fieldLocation`. -/
def fieldLocation : Nat := 1

/-- Field tag `fieldIdentifier`. -/
def fieldIdentifier : Nat := 2

/-- Field tag `fieldSignature`. -/
def fieldSignature : Nat := 3

/-- Field tag `fieldCaveat`. -/
def fieldCaveat : Nat := 4

/-- Field tag `fieldVerificationId`. -/
def fieldVerificationId : Nat := 5

/-- `field.String()`: names from `fieldStrings`, out-of-range tags print
as `invalid`. -/
def fieldString (f : Nat) : String :=
  if f = 1 then "location"
  else if f = 2 then "identifier"
  else if f = 3 then "signature"
  else if f = 4 then "cav"
  else if f = 5 then "vid"
  else "invalid"

/-- `Macaroon` (macaroon.go of the fork): the binary-marshalled data
buffer, three packet references and the signature, which is stored
outside `data`. -/
structure Macaroon where
  data : List Nat
  location : Packet
  id : Packet
  caveats : Packet
  sig : List Nat
  deriving Repr, DecidableEq

/-- The Go zero value `Macaroon{}`. -/
def Macaroon.empty : Macaroon := ⟨[], ⟨0, 0⟩, ⟨0, 0⟩, ⟨0, 0⟩, []⟩

/-- `dataBytes`: the payload `m.data[p.start+3 : p.start+p.totalLen]` of a
packet, `nil` for the zero packet.  Written with truncating `drop`/`take`;
on every packet the code constructs (`totalLen = 0`, or `totalLen ≥ 3` and
`start + totalLen ≤ len(data)`) this coincides with the Go slice expression. -/
def Macaroon.dataBytes (m : Macaroon) (p : Packet) : List Nat :=
  if p.totalLen = 0 then []
  else (m.data.drop (p.start + headerLen)).take (p.totalLen - headerLen)

/-- `packetBytes`: the whole packet `m.data[p.start : p.start+p.totalLen]`. -/
def Macaroon.packetBytes (m : Macaroon) (p : Packet) : List Nat :=
  (m.data.drop p.start).take p.totalLen

/-- `fieldNum`: the tag byte `m.data[p.start+2]`, `fieldInvalid` for the
zero packet.  Total via `getD`; every non-zero packet the code produces
has its tag byte in bounds. -/
def Macaroon.fieldNum (m : Macaroon) (p : Packet) : Nat :=
  if p.totalLen = 0 then fieldInvalid else m.data.getD (p.start + 2) 0

/-- `parseSize`: `binary.LittleEndian.Uint16(data)`. -/
def parseSize (data : List Nat) : Nat :=
  data.getD 0 0 + 256 * data.getD 1 0

/-- `appendSize`: append the 2-byte little-endian encoding of `size`
(via `uint16(size)`). -/
def appendSize (data : List Nat) (size : Nat) : List Nat :=
  data ++ [size % 256, (size / 256) % 256]

/-- `parsePacket`: parse the packet starting at `start` in `m.data`.
`m.data[start:]` panics when `start > len(m.data)`; the reslice
`data[2:plen]` panics when the declared length is below 2. -/
def Macaroon.parsePacket (m : Macaroon) (start : Nat) : GoResult Packet :=
  if m.data.length < start then .panic "slice bounds out of range"
  else
    let data := m.data.drop start
    if data.length < 6 then .err "packet too short"
    else
      let plen := parseSize data
      if data.length < plen then .err "packet size too big"
      else if plen < 2 then .panic "slice bounds out of range"
      else .ok ⟨start, plen⟩

/-- `rawAppendPacket`: append `[len lo][len hi][tag][payload]` to `buf`,
returning the new buffer, the packet reference and an ok flag; fails
(without appending) when `2 + 1 + len(data) > 0xffff`. -/
def rawAppendPacket (buf : List Nat) (f : Nat) (data : List Nat) :
    List Nat × Packet × Bool :=
  let plen := 2 + 1 + data.length
  if maxPacketLen < plen then ([], ⟨0, 0⟩, false)
  else (appendSize buf plen ++ [f % 256] ++ data, ⟨buf.length, plen⟩, true)

/-- `appendPacket`: `rawAppendPacket` onto `m.data`; on failure `m` is
left unchanged. -/
def Macaroon.appendPacket (m : Macaroon) (f : Nat) (data : List Nat) :
    Macaroon × Packet × Bool :=
  let r := rawAppendPacket m.data f data
  if r.2.2 then ({ m with data := r.1 }, r.2.1, true) else (m, r.2.1, false)

/-- Modelled from the spec: `packetSize(data)` — the helper used by
`marshalBinaryLen`, not present in the given sources — is the encoded
size of one packet, the 3-byte header plus the payload, per the spec's
binary layout "[2-byte little-endian total length][1-byte field
tag][payload bytes]". -/
def packetSize (data : List Nat) : Nat := headerLen + data.length

/-!
## Macaroon construction, binding and verification (macaroon.go)

`keyedHash` is `hmacSHA256`; `keyedHasher(k)` followed by `Write`s of
several chunks and `Sum` is `hmacSHA256 k` of their concatenation.
-/

/-- `init`: append the location packet, then the identifier packet. -/
def Macaroon.init (m : Macaroon) (idb loc : List Nat) : Except String Macaroon :=
  match m.appendPacket fieldLocation loc with
  | (m1, p1, ok1) =>
    if ok1 then
      match ({ m1 with location := p1 }).appendPacket fieldIdentifier idb with
      | (m2, p2, ok2) =>
        if ok2 then .ok { m2 with id := p2 }
        else .error "macaroon identifier too big"
    else .error "macaroon location too big"

/-- `New(rootKey, id, loc)`: init, then
`sig = keyedHash(rootKey, dataBytes(id))`. -/
def New (rootKey idb loc : List Nat) : Except String Macaroon :=
  match Macaroon.empty.init idb loc with
  | .error e => .error e
  | .ok m => .ok { m with sig := hmacSHA256 rootKey (m.dataBytes m.id) }

/-- `SetCaveats(v)` after the external caveat-payload serializer
(`MarshalCaveats`, an out-of-scope collaborator per the spec) has
produced `cavData`: append the caveat packet and chain
`sig = keyedHash(sig, cavData)`. -/
def Macaroon.setCaveatsData (m : Macaroon) (cavData : List Nat) : Except String Macaroon :=
  match m.appendPacket fieldCaveat cavData with
  | (m1, p, ok) =>
    if ok then .ok { m1 with caveats := p, sig := hmacSHA256 m.sig cavData }
    else .error "caveat identifier too big"

/-- `bindForRequest(rootSig, dischargeSig)`: the signature itself when the
two are equal, otherwise `SHA-256(rootSig || dischargeSig)`. -/
def bindForRequest (rootSig dischargeSig : List Nat) : List Nat :=
  if rootSig = dischargeSig then rootSig else sha256 (rootSig ++ dischargeSig)

/-- `Bind(sig)`: replace the stored signature by
`bindForRequest(sig, m.sig)`. -/
def Macaroon.Bind (m : Macaroon) (sig : List Nat) : Macaroon :=
  { m with sig := bindForRequest sig m.sig }

/-- `verify(rootSig, rootKey)`: substitute `m.sig` for an empty root
signature, recompute `keyedHash(rootKey, id)` chained with one
`keyedHash` over the caveats packet payload, bind, and compare with the
stored signature (`hmac.Equal` is functionally byte equality). -/
def Macaroon.verify (m : Macaroon) (rootSig rootKey : List Nat) : Except String Unit :=
  let rootSig' := if rootSig.length = 0 then m.sig else rootSig
  let caveatSig := hmacSHA256 rootKey (m.dataBytes m.id)
  let caveatSig2 := hmacSHA256 caveatSig (m.dataBytes m.caveats)
  let boundSig := bindForRequest rootSig' caveatSig2
  if boundSig = m.sig then .ok ()
  else .error "signature mismatch after caveat verification"

/-- `Verify(rootKey)`: `verify(m.sig, rootKey)`. -/
def Macaroon.Verify (m : Macaroon) (rootKey : List Nat) : Except String Unit :=
  m.verify m.sig rootKey

/-!
## Binary marshalling (marshal.go of the fork)
-/

/-- `expectPacket(start, kind)`: parse one packet and require its field
tag to be `kind`. -/
def Macaroon.expectPacket (m : Macaroon) (start kind : Nat) : GoResult (Nat × Packet) :=
  match m.parsePacket start with
  | .panic s => .panic s
  | .err e => .err e
  | .ok p =>
    if m.fieldNum p = kind then .ok (start + p.len, p)
    else .err ("unexpected field " ++ fieldString (m.fieldNum p) ++
               "; expected " ++ fieldString kind)

/-- `unmarshalBinaryNoCopy(data)` of the fork: set `m.data = data` and
parse exactly three packets — location, identifier, caveats — then
return.  (The signature packet is never parsed, `m.sig` is never
assigned, and `m.data` is not truncated.) -/
def Macaroon.unmarshalBinaryNoCopy (m : Macaroon) (data : List Nat) : GoResult Macaroon :=
  let m0 : Macaroon := { m with data := data }
  match m0.expectPacket 0 fieldLocation with
  | .panic s => .panic s
  | .err e => .err e
  | .ok (s1, ploc) =>
    let m1 : Macaroon := { m0 with location := ploc }
    match m1.expectPacket s1 fieldIdentifier with
    | .panic s => .panic s
    | .err e => .err e
    | .ok (s2, pid) =>
      let m2 : Macaroon := { m1 with id := pid }
      match m2.expectPacket s2 fieldCaveat with
      | .panic s => .panic s
      | .err e => .err e
      | .ok (_, pcav) => .ok { m2 with caveats := pcav }

/-- `UnmarshalBinary(data)`: copy the input (contents identical) and run
`unmarshalBinaryNoCopy`. -/
def Macaroon.UnmarshalBinary (m : Macaroon) (data : List Nat) : GoResult Macaroon :=
  m.unmarshalBinaryNoCopy data

/-- `appendBinary(data)`: append `m.data` and then a signature packet. -/
def Macaroon.appendBinary (m : Macaroon) (data : List Nat) : Except String (List Nat) :=
  match rawAppendPacket (data ++ m.data) fieldSignature m.sig with
  | (buf, _, ok) =>
    if ok then .ok buf
    else .error "failed to append signature to macaroon, packet is too long"

/-- `MarshalBinary()`: `appendBinary` onto an empty buffer. -/
def Macaroon.MarshalBinary (m : Macaroon) : Except String (List Nat) :=
  m.appendBinary []

/-- `marshalBinaryLen()`: `len(m.data) + packetSize(m.sig)`. -/
def Macaroon.marshalBinaryLen (m : Macaroon) : Nat :=
  m.data.length + packetSize m.sig

/-- The loop body of `Slice.MarshalBinary`: append each macaroon's binary
form in order (the Go error text also interpolates the macaroon id;
the id formatting is elided here). -/
def sliceMarshalLoop (acc : List Nat) : List Macaroon → Except String (List Nat)
  | [] => .ok acc
  | m :: rest =>
    match m.appendBinary acc with
    | .error e => .error ("failed to marshal macaroon: " ++ e)
    | .ok acc2 => sliceMarshalLoop acc2 rest

/-- `Slice.MarshalBinary()`: concatenation of the members' binary forms. -/
def sliceMarshalBinary (s : List Macaroon) : Except String (List Nat) :=
  sliceMarshalLoop [] s

/-- The loop of `Slice.UnmarshalBinary`, with explicit fuel standing in
for Go's unbounded `for` (each successful iteration must consume at
least `headerLen` bytes, so `length + 1` fuel is never exhausted).
Per iteration the fork parses one macaroon from the front of `data`,
caps the capacity of that macaroon's buffer (`m.data[0:len:marshalLen]`
— identity on contents, the embedding carries no capacity), and then
advances by `data[m.marshalBinaryLen():]`, a Go slice expression that
panics when the index exceeds `len(data)`. -/
def sliceUnmarshalLoop : Nat → List Macaroon → List Nat → GoResult (List Macaroon)
  | _, acc, [] => .ok acc.reverse
  | 0, _, _ => .panic "out of fuel"
  | fuel + 1, acc, data =>
    match Macaroon.empty.unmarshalBinaryNoCopy data with
    | .panic s => .panic s
    | .err e => .err ("cannot unmarshal macaroon: " ++ e)
    | .ok m =>
      if data.length < m.marshalBinaryLen then .panic "slice bounds out of range"
      else sliceUnmarshalLoop fuel (m :: acc) (data.drop m.marshalBinaryLen)

/-- `Slice.UnmarshalBinary(data)`. -/
def sliceUnmarshalBinary (data : List Nat) : GoResult (List Macaroon) :=
  sliceUnmarshalLoop (data.length + 1) [] data

/-!
## The discharge-verification engine, modelled from the spec

The recursive discharge verifier of spec §4.5 is not part of the given
sources: `macaroon.go` has only the one-argument `Verify` wrapper and
the `Verifier` interface declaration, while the repository's tests
exercise the three-argument `Verify(rootKey, check, discharges)` form.
Everything in this section is modelled from the spec's words.
-/

/-- Modelled from the spec (§3): a caveat is `caveatId`,
`verificationId` (empty for first-party caveats) and a location hint. -/
structure SpecCaveat where
  cid : List Nat
  vid : List Nat
  loc : List Nat
  deriving Repr, DecidableEq

/-- Modelled from the spec (§3), at the granularity the verifier
observes: identifier, ordered caveat list, signature. -/
structure SpecMacaroon where
  id : List Nat
  caveats : List SpecCaveat
  sig : List Nat
  deriving Repr, DecidableEq

/-- Modelled from the spec (§6): the verifier's error exit values.
`checker e` carries a condition-checker error verbatim. -/
inductive SpecErr where
  | checker : List Nat → SpecErr
  | cannotFindDischarge : List Nat → SpecErr
  | usedMoreThanOnce : List Nat → SpecErr
  | notUsed : List Nat → SpecErr
  | decryptFailed : SpecErr
  | sigMismatch : SpecErr
  | outOfFuel : SpecErr
  deriving Repr, DecidableEq

/-- Modelled from the spec (§4.3 step 1): the fixed context constant fed
to `keyed_hash` to derive the per-caveat encryption key; its concrete
value is an implementation convention. -/
def fixedContext : List Nat := [107, 101, 121]

/-- Modelled from the spec (§4.3 step 3): authenticated encryption at
its functional interface — `vid = nonce ++ tag ++ body` with a 24-byte
nonce and a 32-byte tag `HMAC-SHA-256(encKey, nonce ++ body)`;
confidentiality is not observable in the model. -/
def authEncrypt (encKey nonce payload : List Nat) : List Nat :=
  nonce ++ hmacSHA256 encKey (nonce ++ payload) ++ payload

/-- Modelled from the spec (§4.5): authenticated decryption — returns
the body exactly when the tag verifies under `encKey`. -/
def authDecrypt (encKey vid : List Nat) : Option (List Nat) :=
  let nonce := vid.take 24
  let tag := (vid.drop 24).take 32
  let payload := vid.drop 56
  if 56 ≤ vid.length ∧ tag = hmacSHA256 encKey (nonce ++ payload) then some payload
  else none

/-- Modelled from the spec (§4.5 step 2, third-party case): the index of
the first discharge entry whose id equals the caveat id, ignoring
used-state. -/
def findDischarge (discharges : List SpecMacaroon) (cid : List Nat) : Option Nat :=
  discharges.findIdx? (fun d => d.id == cid)

/-- Modelled from the spec (§4.5 step 2): resolve a third-party caveat —
no matching entry at all fails with `cannot find discharge macaroon for
caveat "<cid>"`; a matching entry already marked used fails with
`discharge macaroon "<id>" was used more than once`; otherwise the entry
is marked used. -/
def resolveDischarge (discharges : List SpecMacaroon) (used : List Bool) (cid : List Nat) :
    Except SpecErr (Nat × List Bool) :=
  match findDischarge discharges cid with
  | none => .error (.cannotFindDischarge cid)
  | some i =>
    if used.getD i false then .error (.usedMoreThanOnce cid)
    else .ok (i, used.set i true)

mutual

/-- Modelled from the spec (§4.5 step 2): `verify_node` — recompute the
caveat signature from the node's key and id, process the caveats in
order, then bind against the threaded top-level root signature and
compare with the stored signature.  Returns the updated used vector.
`fuel` bounds the recursion depth (the spec's termination argument:
each discharge is consumed at most once). -/
def verifyNode (fuel : Nat) (check : List Nat → Option (List Nat))
    (discharges : List SpecMacaroon) (boundRootSig : List Nat)
    (m : SpecMacaroon) (key : List Nat) (used : List Bool) :
    Except SpecErr (List Bool) :=
  match verifyCavs fuel check discharges boundRootSig m.caveats (hmacSHA256 key m.id) used with
  | .error e => .error e
  | .ok (caveatSig, used2) =>
    if bindForRequest boundRootSig caveatSig = m.sig then .ok used2
    else .error .sigMismatch
termination_by (fuel, m.caveats.length + 1)

/-- Modelled from the spec (§4.5 step 2): the caveat loop of
`verify_node`, threading the running caveat signature and the used
vector.  First-party caveats call the condition checker, whose error is
surfaced unmodified; third-party caveats resolve a discharge, decrypt
the delegated key, and recurse with the same top-level bound root
signature.  After either kind the caveat signature is chained over
`vid ++ cid`. -/
def verifyCavs (fuel : Nat) (check : List Nat → Option (List Nat))
    (discharges : List SpecMacaroon) (boundRootSig : List Nat)
    (cavs : List SpecCaveat) (caveatSig : List Nat) (used : List Bool) :
    Except SpecErr (List Nat × List Bool) :=
  match cavs with
  | [] => .ok (caveatSig, used)
  | c :: rest =>
    if c.vid = [] then
      match check c.cid with
      | some e => .error (.checker e)
      | none =>
        verifyCavs fuel check discharges boundRootSig rest
          (hmacSHA256 caveatSig (c.vid ++ c.cid)) used
    else
      match resolveDischarge discharges used c.cid with
      | .error e => .error e
      | .ok (i, used2) =>
        match authDecrypt (hmacSHA256 caveatSig fixedContext) c.vid with
        | none => .error .decryptFailed
        | some dischargeKey =>
          if _hf : fuel = 0 then .error .outOfFuel
          else
            match verifyNode (fuel - 1) check discharges boundRootSig
                (discharges.getD i ⟨[], [], []⟩) dischargeKey used2 with
            | .error e => .error e
            | .ok used3 =>
              verifyCavs fuel check discharges boundRootSig rest
                (hmacSHA256 caveatSig (c.vid ++ c.cid)) used3
termination_by (fuel, cavs.length)
decreasing_by
  all_goals simp_wf
  · exact Prod.Lex.right _ (by omega)
  · exact Prod.Lex.left _ _ (by omega)
  · exact Prod.Lex.right _ (by omega)

end

/-- Modelled from the spec (§4.5 step 3): after a successful node
verification, the id of the first discharge entry never marked used. -/
def firstUnusedId : List SpecMacaroon → List Bool → Option (List Nat)
  | [], _ => none
  | d :: _, [] => some d.id
  | d :: ds, b :: bs => if b then firstUnusedId ds bs else some d.id

/-- Modelled from the spec (§4.5): the three-argument verification entry
point `verify(primary, rootKey, conditionChecker, discharges)` — the
used vector starts all-false, the top-level bound root signature is the
primary's own signature, and after the node verification succeeds any
never-used discharge fails the whole verification with `discharge
macaroon "<id>" was not used`. -/
def specVerify (primary : SpecMacaroon) (rootKey : List Nat)
    (check : List Nat → Option (List Nat)) (discharges : List SpecMacaroon) :
    Except SpecErr Unit :=
  match verifyNode discharges.length check discharges primary.sig primary rootKey
      (List.replicate discharges.length false) with
  | .error e => .error e
  | .ok used =>
    match firstUnusedId discharges used with
    | some d => .error (.notUsed d)
    | none => .ok ()

/-!
## General lemmas about the embedded operations
-/

/-- SHA-256 always yields 32 bytes. -/
theorem sha256_length (msg : List Nat) : (sha256 msg).length = 32 := by
  simp [sha256, be4]

/-- HMAC-SHA-256 always yields 32 bytes. -/
theorem hmacSHA256_length (key msg : List Nat) : (hmacSHA256 key msg).length = 32 := by
  simp [hmacSHA256, sha256_length]

/-- `bindForRequest` of two equal signatures is the identity. -/
theorem bindForRequest_self (s : List Nat) : bindForRequest s s = s := by
  simp [bindForRequest]

/-- Reading a packet's payload back out of a buffer that contains it:
the payload of the packet `⟨d0.length, 3 + pl.length⟩` inside
`d0 ++ header ++ pl ++ suf` is `pl`.  (Appends after the packet do not
disturb it.) -/
theorem dataBytes_of_packed (m : Macaroon) (st : Nat) (d0 h3 pl suf : List Nat)
    (hd : m.data = d0 ++ h3 ++ pl ++ suf) (hh : h3.length = 3)
    (hst : st = d0.length) :
    m.dataBytes ⟨st, 3 + pl.length⟩ = pl := by
  unfold Macaroon.dataBytes
  rw [if_neg (by simp)]
  simp only [headerLen]
  have hsplit : m.data = (d0 ++ h3) ++ (pl ++ suf) := by rw [hd]; simp [List.append_assoc]
  have hlen : st + 3 = (d0 ++ h3).length := by simp [hh, hst]
  have htake : 3 + pl.length - 3 = pl.length := by omega
  rw [hsplit, hlen, List.drop_left, htake, List.take_left]

/-- The 3-byte header `rawAppendPacket` writes for tag `f` and payload `pl`. -/
def packetHeader (f : Nat) (pl : List Nat) : List Nat :=
  [(3 + pl.length) % 256, ((3 + pl.length) / 256) % 256, f % 256]

/-- `appendPacket` in the fitting case: the buffer grows by
`header ++ payload` and the returned packet references it. -/
theorem appendPacket_ok (m : Macaroon) (f : Nat) (pl : List Nat)
    (h : 3 + pl.length ≤ 65535) :
    m.appendPacket f pl =
      ({ m with data := m.data ++ packetHeader f pl ++ pl },
        ⟨m.data.length, 3 + pl.length⟩, true) := by
  have h2 : ¬ (65535 < 2 + 1 + pl.length) := by omega
  unfold Macaroon.appendPacket rawAppendPacket appendSize maxPacketLen packetHeader
  simp only [h2, if_false, ite_false]
  norm_num [List.append_assoc]

/-- `appendPacket` in the too-big case: the macaroon is returned
unchanged with a zero packet and `false`. -/
theorem appendPacket_fail (m : Macaroon) (f : Nat) (pl : List Nat)
    (h : 65535 < 3 + pl.length) :
    m.appendPacket f pl = (m, ⟨0, 0⟩, false) := by
  have h2 : 65535 < 2 + 1 + pl.length := by omega
  unfold Macaroon.appendPacket rawAppendPacket maxPacketLen
  simp [h2]

/-- The macaroon `New(rootKey, id, loc)` constructs when both fields
fit: location packet, then identifier packet, and the identifier-keyed
initial signature. -/
def NewMac (rootKey idb loc : List Nat) : Macaroon :=
  { data := packetHeader fieldLocation loc ++ loc ++ (packetHeader fieldIdentifier idb ++ idb),
    location := ⟨0, 3 + loc.length⟩,
    id := ⟨3 + loc.length, 3 + idb.length⟩,
    caveats := ⟨0, 0⟩,
    sig := hmacSHA256 rootKey idb }

/-- `New` succeeds with `NewMac` when both fields fit the packet limit. -/
theorem New_ok (rootKey idb loc : List Nat)
    (hl : 3 + loc.length ≤ 65535) (hi : 3 + idb.length ≤ 65535) :
    New rootKey idb loc = .ok (NewMac rootKey idb loc) := by
  unfold New Macaroon.init
  rw [appendPacket_ok Macaroon.empty fieldLocation loc hl]
  dsimp only
  rw [appendPacket_ok _ fieldIdentifier idb hi]
  dsimp only
  simp only [reduceIte]
  rw [dataBytes_of_packed _ _ (Macaroon.empty.data ++ packetHeader fieldLocation loc ++ loc)
      (packetHeader fieldIdentifier idb) idb []
      (by simp [List.append_assoc] <;> omega) (by simp [packetHeader]) rfl]
  simp [NewMac, Macaroon.empty, packetHeader, List.append_assoc]
  try omega

/-- The macaroon produced by a successful `SetCaveats` on `m`: caveat
packet appended, signature chained over the caveat payload. -/
def withCaveats (m : Macaroon) (cavData : List Nat) : Macaroon :=
  { data := m.data ++ packetHeader fieldCaveat cavData ++ cavData,
    location := m.location,
    id := m.id,
    caveats := ⟨m.data.length, 3 + cavData.length⟩,
    sig := hmacSHA256 m.sig cavData }

/-- `setCaveatsData` succeeds with `withCaveats` when the payload fits. -/
theorem setCaveatsData_ok (m : Macaroon) (cavData : List Nat)
    (h : 3 + cavData.length ≤ 65535) :
    m.setCaveatsData cavData = .ok (withCaveats m cavData) := by
  unfold Macaroon.setCaveatsData
  rw [appendPacket_ok m fieldCaveat cavData h]
  simp [withCaveats]

/-- `New` fails on an oversized location. -/
theorem New_fail_loc (rootKey idb loc : List Nat) (h : 65535 < 3 + loc.length) :
    New rootKey idb loc = .error "macaroon location too big" := by
  unfold New Macaroon.init
  rw [appendPacket_fail _ _ _ h]
  simp

/-- `New` fails on an oversized identifier. -/
theorem New_fail_id (rootKey idb loc : List Nat)
    (hl : 3 + loc.length ≤ 65535) (h : 65535 < 3 + idb.length) :
    New rootKey idb loc = .error "macaroon identifier too big" := by
  unfold New Macaroon.init
  rw [appendPacket_ok Macaroon.empty fieldLocation loc hl]
  dsimp only
  rw [appendPacket_fail _ _ _ h]
  simp

/-- `setCaveatsData` fails on an oversized caveat payload. -/
theorem setCaveatsData_fail (m : Macaroon) (cavData : List Nat)
    (h : 65535 < 3 + cavData.length) :
    m.setCaveatsData cavData = .error "caveat identifier too big" := by
  unfold Macaroon.setCaveatsData
  rw [appendPacket_fail _ _ _ h]
  simp

/-- Closed form of `verify`: it reduces to the single signature
comparison after substituting the stored signature for an empty root
signature. -/
theorem verify_eval (m : Macaroon) (rootSig rootKey : List Nat) :
    m.verify rootSig rootKey =
      (if bindForRequest (if rootSig = [] then m.sig else rootSig)
            (hmacSHA256 (hmacSHA256 rootKey (m.dataBytes m.id)) (m.dataBytes m.caveats))
          = m.sig
        then .ok ()
        else .error "signature mismatch after caveat verification") := by
  unfold Macaroon.verify
  simp only [List.length_eq_zero]

/-- Inversion of a successful `New`. -/
theorem New_ok_inv (rootKey idb loc : List Nat) (m : Macaroon)
    (h : New rootKey idb loc = .ok m) : m = NewMac rootKey idb loc := by
  by_cases hl : 3 + loc.length ≤ 65535
  · by_cases hi : 3 + idb.length ≤ 65535
    · rw [New_ok rootKey idb loc hl hi] at h
      injection h with h2
      exact h2.symm
    · rw [New_fail_id rootKey idb loc hl (by omega)] at h
      simp at h
  · rw [New_fail_loc rootKey idb loc (by omega)] at h
    simp at h

/-- Inversion of a successful `setCaveatsData`. -/
theorem setCaveatsData_ok_inv (m : Macaroon) (cavData : List Nat) (m' : Macaroon)
    (h : m.setCaveatsData cavData = .ok m') : m' = withCaveats m cavData := by
  by_cases hc : 3 + cavData.length ≤ 65535
  · rw [setCaveatsData_ok m cavData hc] at h
    injection h with h2
    exact h2.symm
  · rw [setCaveatsData_fail m cavData (by omega)] at h
    simp at h

/-- The construction/verification agreement at the heart of the design:
`New` followed by one `SetCaveats` yields a macaroon that `Verify`
accepts under the same root key. -/
theorem verify_withCaveats_NewMac (rootKey idb loc cavData : List Nat) :
    (withCaveats (NewMac rootKey idb loc) cavData).Verify rootKey = .ok () := by
  have hpid : (withCaveats (NewMac rootKey idb loc) cavData).id
      = ⟨3 + loc.length, 3 + idb.length⟩ := by simp [withCaveats, NewMac]
  have hid : (withCaveats (NewMac rootKey idb loc) cavData).dataBytes
      (withCaveats (NewMac rootKey idb loc) cavData).id = idb := by
    rw [hpid]
    exact dataBytes_of_packed _ _ (packetHeader fieldLocation loc ++ loc)
      (packetHeader fieldIdentifier idb) idb (packetHeader fieldCaveat cavData ++ cavData)
      (by simp [withCaveats, NewMac, List.append_assoc])
      (by simp [packetHeader]) (by simp [packetHeader] <;> omega)
  have hpc : (withCaveats (NewMac rootKey idb loc) cavData).caveats
      = ⟨(NewMac rootKey idb loc).data.length, 3 + cavData.length⟩ := by simp [withCaveats]
  have hcav : (withCaveats (NewMac rootKey idb loc) cavData).dataBytes
      (withCaveats (NewMac rootKey idb loc) cavData).caveats = cavData := by
    rw [hpc]
    exact dataBytes_of_packed _ _ ((NewMac rootKey idb loc).data)
      (packetHeader fieldCaveat cavData) cavData []
      (by simp [withCaveats, List.append_assoc])
      (by simp [packetHeader]) rfl
  have hsig : (withCaveats (NewMac rootKey idb loc) cavData).sig
      = hmacSHA256 (hmacSHA256 rootKey idb) cavData := by simp [withCaveats, NewMac]
  unfold Macaroon.Verify
  rw [verify_eval, hid, hcav, ite_self, hsig, bindForRequest_self, if_pos rfl]

/-!
## Concrete example values used by the claim theorems
-/

/-- The bytes of the root key "secret". -/
def skBytes : List Nat := [115, 101, 99, 114, 101, 116]

/-- The macaroon `New("secret", "", "")` constructs: two empty packets
and the identifier-keyed signature. -/
def c1mac : Macaroon := ⟨[3, 0, 1, 3, 0, 2], ⟨0, 3⟩, ⟨3, 3⟩, ⟨0, 0⟩, hmacSHA256 skBytes []⟩

/-- A macaroon with empty location/id/caveats payloads whose stored
signature is `SHA-256` of the recomputed caveat signature (reachable
via binary data since the signature is arbitrary bytes on the wire). -/
def c3mac : Macaroon :=
  ⟨[3, 0, 1, 3, 0, 2, 3, 0, 4], ⟨0, 3⟩, ⟨3, 3⟩, ⟨6, 3⟩,
   sha256 (hmacSHA256 (hmacSHA256 [] []) [])⟩

/-- `New([1], "i", "l")` followed by `SetCaveats` payload `[9]`. -/
def c5mac : Macaroon := withCaveats (NewMac [1] [105] [108]) [9]

/-- The binary marshalling of `c5mac`. -/
def c5bytes : List Nat := c5mac.data ++ [35, 0, 3] ++ c5mac.sig

/-- What the fork's unmarshal produces from `c5bytes`: the buffer still
contains the signature packet and the signature field is left empty. -/
def c5unmac : Macaroon := ⟨c5bytes, ⟨0, 4⟩, ⟨4, 4⟩, ⟨8, 4⟩, []⟩

/-- A second macaroon for the slice example. -/
def c6mac : Macaroon := withCaveats (NewMac [1] [106] [109]) [8]

/-- The binary marshalling of the slice `[c5mac, c6mac]`. -/
def c6bytes : List Nat :=
  (c5mac.data ++ [35, 0, 3] ++ c5mac.sig) ++ (c6mac.data ++ [35, 0, 3] ++ c6mac.sig)

/-- A buffer whose first packet declares total length 0. -/
def c8mac : Macaroon := ⟨[0, 0, 1, 1, 1, 1], ⟨0, 0⟩, ⟨0, 0⟩, ⟨0, 0⟩, []⟩

/-- A primary spec-model macaroon with no caveats, signed by key `[2]`. -/
def pEx : SpecMacaroon := ⟨[1], [], hmacSHA256 [2] [1]⟩

/-- A spec-model discharge macaroon with id `[7]`. -/
def dEx : SpecMacaroon := ⟨[7], [], hmacSHA256 [9] [7]⟩

/-!
## Claim theorems
-/

set_option maxRecDepth 400000 in
/-- C1: the claim states that a macaroon built by `New(rootKey, id, loc)`
and not mutated afterwards verifies under the same root key with no
per-caveat signature updates.  On this code it does not: `verify`
unconditionally chains one `keyedHash` over the (absent) caveats
packet, so the recomputed signature `HMAC(HMAC(rootKey, id), "")`
differs from the stored `HMAC(rootKey, id)` and `Verify` fails with
"signature mismatch after caveat verification" — here evaluated on
`New("secret", "", "")`. -/
theorem C1_new_then_verify_fails :
    New skBytes [] [] = .ok c1mac
    ∧ c1mac.Verify skBytes = .error "signature mismatch after caveat verification" := by
  constructor
  · rfl
  · rfl

set_option maxRecDepth 400000 in
/-- C3 (counterexample): the claim quantifies over every root-signature
parameter, but when the parameter is empty `verify` substitutes the
stored signature before binding.  For `c3mac` (whose stored signature
equals `bind_for_request([], recomputedCaveatSig) = SHA-256(recomputedCaveatSig)`)
the claim as stated predicts success for the empty parameter, yet
`verify` fails with "signature mismatch after caveat verification". -/
theorem C3_counterexample :
    bindForRequest []
        (hmacSHA256 (hmacSHA256 [] (c3mac.dataBytes c3mac.id)) (c3mac.dataBytes c3mac.caveats))
      = c3mac.sig
    ∧ c3mac.verify [] [] = .error "signature mismatch after caveat verification" := by
  constructor
  · rfl
  · rfl

/-- C3 (amended): for every macaroon and root-signature parameter,
verification fails — and fails with exactly the error "signature
mismatch after caveat verification", the only error `verify` can raise —
if and only if `bind_for_request` of the *effective* root signature (the
parameter, or the stored signature when the parameter is empty) and the
recomputed caveat signature differs from the stored signature;
`hmac.Equal` is a constant-time comparison, functionally byte equality. -/
theorem C3_verify_error_iff :
    ∀ (m : Macaroon) (rootSig rootKey : List Nat),
      (m.verify rootSig rootKey = .error "signature mismatch after caveat verification"
        ↔ bindForRequest (if rootSig = [] then m.sig else rootSig)
            (hmacSHA256 (hmacSHA256 rootKey (m.dataBytes m.id)) (m.dataBytes m.caveats))
            ≠ m.sig)
      ∧ ∀ e, m.verify rootSig rootKey = .error e
          → e = "signature mismatch after caveat verification" := by
  intro m rootSig rootKey
  constructor
  · rw [verify_eval]
    split_ifs <;> simp_all
  · intro e he
    rw [verify_eval] at he
    split_ifs at he <;> simp_all

set_option maxRecDepth 400000 in
/-- C3 (witness): the amended equivalence applied at `c3mac` with the
empty root-signature parameter. -/
theorem C3_verify_error_iff_witness :
    c3mac.verify [] [] = .error "signature mismatch after caveat verification" :=
  (C3_verify_error_iff c3mac [] []).1.mpr (by decide)

/-- C4: `bindForRequest` returns the root signature unchanged when the
two signatures are byte-equal and `SHA-256(rootSig ++ dischargeSig)`
otherwise, and `Bind(sig)` replaces the stored signature with
`bindForRequest(sig, storedSig)` while leaving every other field of the
macaroon unchanged. -/
theorem C4_bindForRequest_Bind :
    ∀ (r d s : List Nat) (m : Macaroon),
      (r = d → bindForRequest r d = r)
      ∧ (r ≠ d → bindForRequest r d = sha256 (r ++ d))
      ∧ (m.Bind s).sig = bindForRequest s m.sig
      ∧ (m.Bind s).data = m.data ∧ (m.Bind s).location = m.location
      ∧ (m.Bind s).id = m.id ∧ (m.Bind s).caveats = m.caveats := by
  intro r d s m
  exact ⟨fun h => by simp [bindForRequest, h], fun h => by simp [bindForRequest, h],
    rfl, rfl, rfl, rfl, rfl⟩

/-- C4 (witness): both branches of `bindForRequest` at concrete inputs. -/
theorem C4_bindForRequest_Bind_witness :
    bindForRequest [1] [1] = [1] ∧ bindForRequest [1] [2] = sha256 [1, 2] :=
  ⟨(C4_bindForRequest_Bind [1] [1] [] Macaroon.empty).1 rfl,
   (C4_bindForRequest_Bind [1] [2] [] Macaroon.empty).2.1 (by decide)⟩

/-- C2: in the spec-modelled verifier, every supplied discharge must be
consumed exactly once — if the top-level node verification succeeds and
some discharge entry was never marked used, the whole verification
fails with the `discharge macaroon "<id>" was not used` error carrying
the first unused entry's id; and resolving a third-party caveat whose
first matching discharge entry is already marked used fails with
`discharge macaroon "<id>" was used more than once`. -/
theorem C2_discharge_accounting :
    (∀ (primary : SpecMacaroon) (rootKey : List Nat)
        (check : List Nat → Option (List Nat)) (discharges : List SpecMacaroon)
        (used : List Bool) (d : List Nat),
      verifyNode discharges.length check discharges primary.sig primary rootKey
          (List.replicate discharges.length false) = .ok used →
      firstUnusedId discharges used = some d →
      specVerify primary rootKey check discharges = .error (.notUsed d))
    ∧ (∀ (discharges : List SpecMacaroon) (used : List Bool) (cid : List Nat) (i : Nat),
        findDischarge discharges cid = some i →
        used.getD i false = true →
        resolveDischarge discharges used cid = .error (.usedMoreThanOnce cid)) := by
  constructor
  · intro primary rootKey check discharges used d h1 h2
    unfold specVerify
    rw [h1]
    dsimp only
    rw [h2]
  · intro discharges used cid i h1 h2
    unfold resolveDischarge
    rw [h1]
    dsimp only
    rw [if_pos h2]

set_option maxRecDepth 400000 in
/-- C2 (witness): a primary with no caveats verifies at node level, and
the supplied discharge with id `[7]` is reported as never used; a
discharge list whose only matching entry is already marked used is
reported as used more than once. -/
theorem C2_discharge_accounting_witness :
    specVerify pEx [2] (fun _ => none) [dEx] = .error (.notUsed [7])
    ∧ resolveDischarge [dEx] [true] [7] = .error (.usedMoreThanOnce [7]) :=
  ⟨C2_discharge_accounting.1 pEx [2] (fun _ => none) [dEx] [false] [7]
      (by simp [verifyNode, verifyCavs, pEx, bindForRequest_self])
      (by rfl),
   C2_discharge_accounting.2 [dEx] [true] [7] 0 (by rfl) (by rfl)⟩

set_option maxRecDepth 1000000 in
/-- C5: the claim states binary unmarshalling inverts marshalling and
re-marshalling reproduces the bytes.  On this code it does not:
`unmarshalBinaryNoCopy` stops after the caveats packet, never parses
the signature packet, never assigns the signature, and never truncates
the buffer — so the unmarshalled macaroon has an empty signature and
re-marshalling appends a second (empty) signature packet, changing the
bytes.  Evaluated here on the marshalling of
`New([1], "i", "l")` + `SetCaveats([9])`. -/
theorem C5_roundtrip_broken :
    c5mac.MarshalBinary = .ok c5bytes
    ∧ Macaroon.empty.UnmarshalBinary c5bytes = .ok c5unmac
    ∧ c5unmac.sig ≠ c5mac.sig
    ∧ c5unmac.MarshalBinary = .ok (c5bytes ++ [3, 0, 3])
    ∧ c5bytes ++ [3, 0, 3] ≠ c5bytes := by
  refine ⟨rfl, by rfl, by decide, by rfl, by decide⟩

set_option maxRecDepth 1000000 in
/-- C6: the claim states that after `Slice.UnmarshalBinary` the
unmarshalled macaroons are isolated from each other's appends.  On this
code `Slice.UnmarshalBinary` never gets that far: because the
per-macaroon unmarshal leaves the whole remaining buffer in `m.data`
(signature packet included), `marshalBinaryLen` exceeds the remaining
length and the advance `data[m.marshalBinaryLen():]` panics ("slice
bounds out of range") on every input whose first macaroon parses —
here the marshalling of the two-element slice `[c5mac, c6mac]`. -/
theorem C6_slice_unmarshal_panics :
    sliceMarshalBinary [c5mac, c6mac] = .ok c6bytes
    ∧ sliceUnmarshalBinary c6bytes = .panic "slice bounds out of range" := by
  constructor
  · rfl
  · rfl

set_option maxRecDepth 1000000 in
/-- C7 (counterexample): the claim includes binary unmarshalling among
the operations that leave a 32-byte signature, but the fork's unmarshal
never assigns the signature: unmarshalling a valid macaroon binary
yields signature length 0. -/
theorem C7_counterexample :
    Macaroon.empty.UnmarshalBinary c5bytes = .ok c5unmac
    ∧ c5unmac.sig.length = 0 := by
  constructor
  · rfl
  · rfl

/-- C7 (amended): `New` and `SetCaveats` always produce a 32-byte
(HMAC-SHA-256-length) signature, and `Bind` preserves 32-byte
signatures; binary unmarshalling, however, leaves the signature empty
(and JSON unmarshalling imposes no length check), so the invariant
holds only for the constructive operations. -/
theorem C7_sig_length :
    (∀ (rootKey idb loc : List Nat) (m : Macaroon),
        New rootKey idb loc = .ok m → m.sig.length = 32)
    ∧ (∀ (m : Macaroon) (cavData : List Nat) (m' : Macaroon),
        m.setCaveatsData cavData = .ok m' → m'.sig.length = 32)
    ∧ (∀ (m : Macaroon) (s : List Nat),
        m.sig.length = 32 → (m.Bind s).sig.length = 32) := by
  refine ⟨?_, ?_, ?_⟩
  · intro rootKey idb loc m h
    rw [New_ok_inv rootKey idb loc m h]
    simp [NewMac, hmacSHA256_length]
  · intro m cavData m' h
    rw [setCaveatsData_ok_inv m cavData m' h]
    simp [withCaveats, hmacSHA256_length]
  · intro m s h
    unfold Macaroon.Bind bindForRequest
    dsimp only
    split_ifs with he
    · rw [he]
      exact h
    · exact sha256_length _

/-- C7 (witness): the three preserved cases at concrete inputs. -/
theorem C7_sig_length_witness :
    (NewMac [1] [105] [108]).sig.length = 32
    ∧ (withCaveats (NewMac [1] [105] [108]) [9]).sig.length = 32
    ∧ ((withCaveats (NewMac [1] [105] [108]) [9]).Bind [7]).sig.length = 32 :=
  ⟨C7_sig_length.1 [1] [105] [108] (NewMac [1] [105] [108])
      (New_ok [1] [105] [108] (by norm_num) (by norm_num)),
   C7_sig_length.2.1 (NewMac [1] [105] [108]) [9] (withCaveats (NewMac [1] [105] [108]) [9])
      (setCaveatsData_ok (NewMac [1] [105] [108]) [9] (by norm_num)),
   C7_sig_length.2.2 (withCaveats (NewMac [1] [105] [108]) [9]) [7]
      (C7_sig_length.2.1 (NewMac [1] [105] [108]) [9] (withCaveats (NewMac [1] [105] [108]) [9])
        (setCaveatsData_ok (NewMac [1] [105] [108]) [9] (by norm_num)))⟩

/-- C8: the claim states `parsePacket` is total (well-formed packet or
structural error, no crash).  On this code a buffer with at least 6
bytes remaining whose declared 16-bit length is below 2 makes the Go
reslice `data[2:plen]` panic — evaluated here on the 6-byte buffer
`[0,0,1,1,1,1]` (declared length 0).  The structural-error branches the
claim lists do hold: fewer than 6 bytes, length exceeding the remaining
buffer, and (via `expectPacket`) a mismatched tag each return errors. -/
theorem C8_parsePacket_panics :
    c8mac.parsePacket 0 = .panic "slice bounds out of range"
    ∧ parseSize [0, 0, 1, 1, 1, 1] = 0
    ∧ (⟨[1, 2, 3], ⟨0, 0⟩, ⟨0, 0⟩, ⟨0, 0⟩, []⟩ : Macaroon).parsePacket 0 = .err "packet too short"
    ∧ (⟨[7, 0, 1, 1, 1, 1], ⟨0, 0⟩, ⟨0, 0⟩, ⟨0, 0⟩, []⟩ : Macaroon).parsePacket 0
        = .err "packet size too big"
    ∧ (⟨[3, 0, 2, 3, 0, 1], ⟨0, 0⟩, ⟨0, 0⟩, ⟨0, 0⟩, []⟩ : Macaroon).expectPacket 0 fieldLocation
        = .err "unexpected field identifier; expected location" := by
  refine ⟨rfl, rfl, rfl, rfl, rfl⟩

/-- C9: appending a packet fails — returning the too-big condition with
the macaroon's buffer unchanged, no crash — exactly when
`3 + len(payload) > 65535`; otherwise it succeeds, the new packet's
total length is `3 + len(payload)`, and its bytes are the 2-byte
little-endian total length, the tag byte, then the payload. -/
theorem C9_appendPacket :
    ∀ (m : Macaroon) (f : Nat) (pl : List Nat),
      (65535 < 3 + pl.length → m.appendPacket f pl = (m, ⟨0, 0⟩, false))
      ∧ (3 + pl.length ≤ 65535 →
          m.appendPacket f pl
            = ({ m with data := m.data ++ packetHeader f pl ++ pl },
               ⟨m.data.length, 3 + pl.length⟩, true)
          ∧ (packetHeader f pl ++ pl).length = 3 + pl.length
          ∧ ({ m with data := m.data ++ packetHeader f pl ++ pl } : Macaroon).packetBytes
              ⟨m.data.length, 3 + pl.length⟩ = packetHeader f pl ++ pl) := by
  intro m f pl
  constructor
  · intro h
    exact appendPacket_fail m f pl h
  · intro h
    refine ⟨appendPacket_ok m f pl h, by simp [packetHeader]; try omega, ?_⟩
    unfold Macaroon.packetBytes
    dsimp only
    rw [show m.data ++ packetHeader f pl ++ pl = m.data ++ (packetHeader f pl ++ pl) by
          simp [List.append_assoc],
        List.drop_left,
        show 3 + pl.length = (packetHeader f pl ++ pl).length by simp [packetHeader]; try omega,
        List.take_length]

/-- C9 (witness): the too-big branch at a 65533-byte payload and the
success branch at payload `[7]`. -/
theorem C9_appendPacket_witness :
    Macaroon.empty.appendPacket 5 (List.replicate 65533 0) = (Macaroon.empty, ⟨0, 0⟩, false)
    ∧ (Macaroon.empty.appendPacket 1 [7]).1.data = [4, 0, 1, 7] := by
  constructor
  · exact (C9_appendPacket Macaroon.empty 5 (List.replicate 65533 0)).1
      (by rw [List.length_replicate]; omega)
  · rw [((C9_appendPacket Macaroon.empty 1 [7]).2 (by norm_num)).1]
    rfl

/-- C10: whenever `New(rootKey, id, loc)` succeeds and exactly one
`SetCaveats` call succeeds on the result, `Verify(rootKey)` succeeds:
the signature `HMAC(HMAC(rootKey, idBytes), caveatsPayload)` written at
construction is exactly the chain `verify` recomputes, and
`bind_for_request` of the equal signatures is the identity. -/
theorem C10_new_setCaveats_verify (rootKey idb loc cavData : List Nat) (m1 m2 : Macaroon)
    (h1 : New rootKey idb loc = .ok m1)
    (h2 : m1.setCaveatsData cavData = .ok m2) :
    m2.Verify rootKey = .ok () := by
  rw [setCaveatsData_ok_inv m1 cavData m2 h2, New_ok_inv rootKey idb loc m1 h1]
  exact verify_withCaveats_NewMac rootKey idb loc cavData

/-- C10 (witness): `New([1], "i", "l")` + `SetCaveats([9])` verifies. -/
theorem C10_new_setCaveats_verify_witness :
    (withCaveats (NewMac [1] [105] [108]) [9]).Verify [1] = .ok () :=
  C10_new_setCaveats_verify [1] [105] [108] [9] (NewMac [1] [105] [108])
    (withCaveats (NewMac [1] [105] [108]) [9])
    (New_ok [1] [105] [108] (by norm_num) (by norm_num))
    (setCaveatsData_ok (NewMac [1] [105] [108]) [9] (by norm_num))

end IronMacaroon
